import Mathlib

/-!
# FrankenKiro core: collision, raycasting, and enemy AI — verification development

A shallow embedding of the game's numeric core (grid collision system,
DDA raycasting, enemy AI state machine) together with proofs about it.

Numbers are modelled as exact real numbers `ℝ` (the idealisation of the
source's IEEE-754 doubles): the geometry uses `Real.sqrt`, `Real.cos` and
`Real.sin`, which exist only over `ℝ`, so the geometric definitions are
noncomputable; all grid-level data (cell indices, the level grid) stays in
`ℤ`/`List`, where everything is decidable.  The source's unbounded `while`
loops (the two DDA walkers) are embedded as fuel-indexed recursions whose
fuel is computed from the loop state; sufficiency of the fuel is proved
where a claim depends on it.  JavaScript's IEEE `Infinity`, which the
renderer's ray caster uses for the per-axis traversal deltas of an
axis-aligned ray, is modelled by `Option ℝ` with `none` standing for `+∞`.
-/

namespace FrankenKiro

/-! ## Vector2 math (src/engine/vector2.ts) -/

/-- 2D vector, `{x: number, y: number}`. -/
@[ext]
structure Vector2 where
  x : ℝ
  y : ℝ

/-- `vec2(x, y)`. -/
def vec2 (x y : ℝ) : Vector2 := ⟨x, y⟩

/-- `add(a, b)`. -/
def add (a b : Vector2) : Vector2 := ⟨a.x + b.x, a.y + b.y⟩

/-- `subtract(a, b)`. -/
def subtract (a b : Vector2) : Vector2 := ⟨a.x - b.x, a.y - b.y⟩

/-- `multiply(v, scalar)`. -/
def multiply (v : Vector2) (scalar : ℝ) : Vector2 := ⟨v.x * scalar, v.y * scalar⟩

/-- `length(v) = Math.sqrt(v.x*v.x + v.y*v.y)`. -/
noncomputable def length (v : Vector2) : ℝ := Real.sqrt (v.x * v.x + v.y * v.y)

/-- `normalize(v)`: unit vector, or the zero vector when `length(v) == 0`. -/
noncomputable def normalize (v : Vector2) : Vector2 :=
  if length v = 0 then ⟨0, 0⟩ else ⟨v.x / length v, v.y / length v⟩

/-- `distance(a, b) = length(subtract(b, a))`. -/
noncomputable def distance (a b : Vector2) : ℝ := length (subtract b a)

/-! ## Level map and grid queries (src/game/types.ts, src/engine/collision.ts) -/

/-- `LevelMap`: only the fields the verified core reads are modelled
(`width`, `height` and the row-major `grid`); the spawn/item bookkeeping
fields are consumed by excluded collaborators. -/
structure LevelMap where
  width : ℤ
  height : ℤ
  grid : List (List ℤ)

/-- `isWall(x, y, level)` (collision module): out of bounds counts as a
wall; otherwise the cell value is compared with `!== 0`.  Every call site
in this core passes integer cell indices, so the source's inner
`Math.floor` is the identity and the function is embedded on `ℤ`. -/
def isWall (x y : ℤ) (level : LevelMap) : Bool :=
  if x < 0 ∨ x ≥ level.width ∨ y < 0 ∨ y ≥ level.height then true
  else ((level.grid.getD y.toNat []).getD x.toNat 0) ≠ 0

/-- `getTile(x, y, level)` (collision module): `1` when out of bounds. -/
def getTile (x y : ℤ) (level : LevelMap) : ℤ :=
  if x < 0 ∨ x ≥ level.width ∨ y < 0 ∨ y ≥ level.height then 1
  else (level.grid.getD y.toNat []).getD x.toNat 0

/-- `isWallTile(x, y, levelMap)` (renderer module): same bounds rule but
the in-bounds comparison is `> 0`. -/
def isWallTile (x y : ℤ) (levelMap : LevelMap) : Bool :=
  if x < 0 ∨ x ≥ levelMap.width ∨ y < 0 ∨ y ≥ levelMap.height then true
  else 0 < ((levelMap.grid.getD y.toNat []).getD x.toNat 0)

/-- `getTileValue(x, y, levelMap)` (renderer module): `1` when out of
bounds. -/
def getTileValue (x y : ℤ) (levelMap : LevelMap) : ℤ :=
  if x < 0 ∨ x ≥ levelMap.width ∨ y < 0 ∨ y ≥ levelMap.height then 1
  else (levelMap.grid.getD y.toNat []).getD x.toNat 0

/-! ## Collision system (src/engine/collision.ts) -/

/-- `CollisionResult`. -/
structure CollisionResult where
  collided : Bool
  normal : Vector2
  penetration : ℝ

/-- The closest point of the unit grid cell `[gx, gx+1] × [gy, gy+1]` to a
point: `closestX = Math.max(gridX, Math.min(position.x, gridX + 1))` and
likewise for `y` (the clamp from `checkWallCollision`). -/
def closestPointOnCell (gx gy : ℤ) (position : Vector2) : Vector2 :=
  ⟨max (gx : ℝ) (min position.x ((gx : ℝ) + 1)),
   max (gy : ℝ) (min position.y ((gy : ℝ) + 1))⟩

/-- Accumulator of `checkWallCollision`'s double loop: the `collided`
flag, the penetration-weighted `totalNormal`, and `maxPenetration`. -/
structure ScanState where
  collided : Bool
  totalNormal : Vector2
  maxPenetration : ℝ

/-- Body of `checkWallCollision`'s loop for one wall cell: the overlap
test against the cell's closest point, the penetration update, and the
normal accumulation (with the degenerate dominant-axis branch when the
center sits exactly on the cell boundary). -/
noncomputable def wallCellUpdate (position : Vector2) (radius : ℝ) (gx gy : ℤ)
    (s : ScanState) : ScanState :=
  let closest := closestPointOnCell gx gy position
  let diff := subtract position closest
  let dist := length diff
  if dist < radius then
    let penetration := radius - dist
    let maxPen := if penetration > s.maxPenetration then penetration else s.maxPenetration
    let tn :=
      if dist > 0.0001 then
        add s.totalNormal (multiply (normalize diff) penetration)
      else
        let centerX : ℝ := (gx : ℝ) + 0.5
        let centerY : ℝ := (gy : ℝ) + 0.5
        let dx := position.x - centerX
        let dy := position.y - centerY
        if |dx| > |dy| then
          add s.totalNormal ⟨if dx > 0 then 1 else -1, 0⟩
        else
          add s.totalNormal ⟨0, if dy > 0 then 1 else -1⟩
    { collided := true, totalNormal := tn, maxPenetration := maxPen }
  else s

/-- One grid cell of `checkWallCollision`'s scan: skip non-wall cells. -/
noncomputable def wallScanStep (position : Vector2) (radius : ℝ) (level : LevelMap)
    (s : ScanState) (c : ℤ × ℤ) : ScanState :=
  if isWall c.1 c.2 level then wallCellUpdate position radius c.1 c.2 s else s

/-- Integer interval `[a, b]` as a list (empty when `b < a`). -/
def intRange (a b : ℤ) : List ℤ :=
  (List.range (b + 1 - a).toNat).map (fun i : ℕ => a + (i : ℤ))

/-- The grid cells scanned by `checkWallCollision`, `gridY` outer and
`gridX` inner as in the source's nested `for` loops. -/
def cellList (minX maxX minY maxY : ℤ) : List (ℤ × ℤ) :=
  (intRange minY maxY).flatMap (fun gy => (intRange minX maxX).map (fun gx => (gx, gy)))

/-- The whole cell scan of `checkWallCollision`: the nested loops over
the bounding box `floor(position ± radius)`, folded over `cellList`. -/
noncomputable def wallScan (position : Vector2) (radius : ℝ) (level : LevelMap) : ScanState :=
  (cellList ⌊position.x - radius⌋ ⌊position.x + radius⌋
    ⌊position.y - radius⌋ ⌊position.y + radius⌋).foldl
    (wallScanStep position radius level) ⟨false, ⟨0, 0⟩, 0⟩

/-- `checkWallCollision(position, radius, level)`: the scan, then the
re-normalisation of the combined push-out normal (zero when the combined
vector is degenerate). -/
noncomputable def checkWallCollision (position : Vector2) (radius : ℝ)
    (level : LevelMap) : CollisionResult :=
  let s := wallScan position radius level
  let normalLen := length s.totalNormal
  let finalNormal := if normalLen > 0.0001 then normalize s.totalNormal else ⟨0, 0⟩
  { collided := s.collided, normal := finalNormal, penetration := s.maxPenetration }

/-- `resolveWallCollision(position, result)`. -/
noncomputable def resolveWallCollision (position : Vector2)
    (result : CollisionResult) : Vector2 :=
  if result.collided then add position (multiply result.normal (result.penetration + 0.001))
  else position

/-- `moveWithCollision(currentPosition, desiredPosition, radius, level)`:
direct resolve, then the axis-separated sliding fallback, then a full
stop at the current position. -/
noncomputable def moveWithCollision (currentPosition desiredPosition : Vector2)
    (radius : ℝ) (level : LevelMap) : Vector2 :=
  let collision := checkWallCollision desiredPosition radius level
  if collision.collided then
    let newPosition := resolveWallCollision desiredPosition collision
    let secondCheck := checkWallCollision newPosition radius level
    if secondCheck.collided then
      let xOnly : Vector2 := ⟨desiredPosition.x, currentPosition.y⟩
      if ¬ (checkWallCollision xOnly radius level).collided then xOnly
      else
        let yOnly : Vector2 := ⟨currentPosition.x, desiredPosition.y⟩
        if ¬ (checkWallCollision yOnly radius level).collided then yOnly
        else currentPosition
    else newPosition
  else desiredPosition

/-! ## General-purpose raycast (src/engine/collision.ts, `raycast`) -/

/-- `RaycastHit`. -/
structure RaycastHit where
  position : Vector2
  distance : ℝ
  normal : Vector2

/-- Which grid line the DDA walker crossed last. -/
inductive Side where
  | horizontal
  | vertical
deriving DecidableEq

/-- Loop state of `raycast`'s DDA walk (this variant replaces an infinite
per-axis delta by the finite constant `1e10`, so everything is a plain
real). -/
structure RcState where
  mapX : ℤ
  mapY : ℤ
  sideDistX : ℝ
  sideDistY : ℝ
  side : Side
  distance : ℝ

/-- One iteration of `raycast`'s `while` body: advance along the axis with
the smaller accumulated side distance. -/
noncomputable def rcStep (deltaDistX deltaDistY : ℝ) (stepX stepY : ℤ) (s : RcState) : RcState :=
  if s.sideDistX < s.sideDistY then
    { s with distance := s.sideDistX, sideDistX := s.sideDistX + deltaDistX,
             mapX := s.mapX + stepX, side := Side.vertical }
  else
    { s with distance := s.sideDistY, sideDistY := s.sideDistY + deltaDistY,
             mapY := s.mapY + stepY, side := Side.horizontal }

/-- `raycast`'s `while (distance < maxDistance)` loop as a fuel-indexed
recursion: step, then return a hit as soon as the current cell is a wall.
`none` doubles as the source's `null` no-hit result and as fuel
exhaustion; the fuel chosen in `raycast` is large enough that exhaustion
is not reached (the per-axis deltas are positive, so each axis can be
advanced only finitely often before the travelled distance passes
`maxDistance`). -/
noncomputable def rcLoop (origin dir : Vector2) (deltaDistX deltaDistY : ℝ) (stepX stepY : ℤ)
    (maxDistance : ℝ) (level : LevelMap) : ℕ → RcState → Option RaycastHit
  | 0, _ => none
  | fuel + 1, s =>
    if s.distance < maxDistance then
      let s' := rcStep deltaDistX deltaDistY stepX stepY s
      if isWall s'.mapX s'.mapY level then
        let normal : Vector2 :=
          if s'.side = Side.vertical then ⟨if stepX > 0 then -1 else 1, 0⟩
          else ⟨0, if stepY > 0 then -1 else 1⟩
        some ⟨add origin (multiply dir s'.distance), s'.distance, normal⟩
      else rcLoop origin dir deltaDistX deltaDistY stepX stepY maxDistance level fuel s'
    else none

/-- `raycast(origin, direction, maxDistance, level)`: normalize the
direction, bail out on a degenerate direction, then walk the grid with
DDA.  Returns `some hit` on the first wall, `none` otherwise. -/
noncomputable def raycast (origin direction : Vector2) (maxDistance : ℝ)
    (level : LevelMap) : Option RaycastHit :=
  let dir := normalize direction
  if |dir.x| < 0.0001 ∧ |dir.y| < 0.0001 then none
  else
    let mapX := ⌊origin.x⌋
    let mapY := ⌊origin.y⌋
    let deltaDistX := if |dir.x| < 0.0001 then 1e10 else |1 / dir.x|
    let deltaDistY := if |dir.y| < 0.0001 then 1e10 else |1 / dir.y|
    let stepX : ℤ := if dir.x < 0 then -1 else 1
    let stepY : ℤ := if dir.y < 0 then -1 else 1
    let sideDistX := if dir.x < 0 then (origin.x - mapX) * deltaDistX
      else ((mapX : ℝ) + 1 - origin.x) * deltaDistX
    let sideDistY := if dir.y < 0 then (origin.y - mapY) * deltaDistY
      else ((mapY : ℝ) + 1 - origin.y) * deltaDistY
    let fuel := (⌈maxDistance / deltaDistX⌉.toNat + ⌈maxDistance / deltaDistY⌉.toNat) + 2
    rcLoop origin dir deltaDistX deltaDistY stepX stepY maxDistance level fuel
      ⟨mapX, mapY, sideDistX, sideDistY, Side.horizontal, 0⟩

/-! ## Raycasting renderer (src/engine/raycaster.ts) -/

/-- `Ray`. -/
structure Ray where
  angle : ℝ
  distance : ℝ
  wallHit : Vector2
  wallType : ℤ
  side : Side

/-- `RaycastConfig` (`screenWidth` is the integer column count). -/
structure RaycastConfig where
  screenWidth : ℕ
  screenHeight : ℝ
  fov : ℝ
  maxRenderDistance : ℝ

/-- `MIN_DISTANCE`, the renderer's divide-by-zero guard. -/
noncomputable def MIN_DISTANCE : ℝ := 0.0001

/-- IEEE `+∞` (used by `castRay` for the traversal delta of an exactly
axis-aligned ray) is `none`; a finite double is `some`. -/
def oAdd (a b : Option ℝ) : Option ℝ :=
  match a, b with
  | some a, some b => some (a + b)
  | _, _ => none

/-- `<` on reals extended with `+∞ = none`: every real is below `+∞`, and
`+∞` is below nothing (exactly IEEE comparison against `Infinity`). -/
def oLt (a b : Option ℝ) : Prop :=
  match a, b with
  | some a, some b => a < b
  | some _, none => True
  | none, _ => False

noncomputable instance (a b : Option ℝ) : Decidable (oLt a b) :=
  match a, b with
  | some a, some b => inferInstanceAs (Decidable (a < b))
  | some _, none => isTrue trivial
  | none, some _ => isFalse id
  | none, none => isFalse id

/-- Loop state of `castRay`'s DDA walk. -/
structure DdaState where
  mapX : ℤ
  mapY : ℤ
  sideDistX : Option ℝ
  sideDistY : Option ℝ
  side : Side
  distance : ℝ
  hit : Bool

/-- Constants and initial state set up by `castRay` before its loop. -/
structure DdaSetup where
  deltaDistX : Option ℝ
  deltaDistY : Option ℝ
  stepX : ℤ
  stepY : ℤ
  state : DdaState

/-- The pre-loop part of `castRay`: direction deltas (`Infinity` for a
zero component), step signs, and the initial side distances (`hit` starts
`false`, `side` starts `'vertical'`, `distance` starts `0`). -/
noncomputable def ddaSetup (origin : Vector2) (rayDirX rayDirY : ℝ) : DdaSetup :=
  let mapX := ⌊origin.x⌋
  let mapY := ⌊origin.y⌋
  let deltaDistX : Option ℝ := if rayDirX = 0 then none else some |1 / rayDirX|
  let deltaDistY : Option ℝ := if rayDirY = 0 then none else some |1 / rayDirY|
  let sideDistX := if rayDirX < 0 then deltaDistX.map (fun d => (origin.x - mapX) * d)
    else deltaDistX.map (fun d => ((mapX : ℝ) + 1 - origin.x) * d)
  let sideDistY := if rayDirY < 0 then deltaDistY.map (fun d => (origin.y - mapY) * d)
    else deltaDistY.map (fun d => ((mapY : ℝ) + 1 - origin.y) * d)
  ⟨deltaDistX, deltaDistY, (if rayDirX < 0 then -1 else 1), (if rayDirY < 0 then -1 else 1),
   ⟨mapX, mapY, sideDistX, sideDistY, Side.vertical, 0, false⟩⟩

/-- One iteration of `castRay`'s `while` body: advance along the axis with
the smaller side distance, then record whether the new cell is a wall. -/
noncomputable def ddaStep (deltaDistX deltaDistY : Option ℝ) (stepX stepY : ℤ)
    (levelMap : LevelMap) (s : DdaState) : DdaState :=
  let s' :=
    if oLt s.sideDistX s.sideDistY then
      { s with distance := s.sideDistX.getD 0, sideDistX := oAdd s.sideDistX deltaDistX,
               mapX := s.mapX + stepX, side := Side.vertical }
    else
      { s with distance := s.sideDistY.getD 0, sideDistY := oAdd s.sideDistY deltaDistY,
               mapY := s.mapY + stepY, side := Side.horizontal }
  { s' with hit := isWallTile s'.mapX s'.mapY levelMap }

/-- `castRay`'s `while (!hit && distance < maxDistance)` loop as a
fuel-indexed recursion; `none` is fuel exhaustion (proved unreachable for
the fuel `castRay` passes, see the termination theorem). -/
noncomputable def ddaLoop (deltaDistX deltaDistY : Option ℝ) (stepX stepY : ℤ)
    (maxDistance : ℝ) (levelMap : LevelMap) : ℕ → DdaState → Option DdaState
  | 0, s => if s.hit = false ∧ s.distance < maxDistance then none else some s
  | fuel + 1, s =>
    if s.hit = false ∧ s.distance < maxDistance then
      ddaLoop deltaDistX deltaDistY stepX stepY maxDistance levelMap fuel
        (ddaStep deltaDistX deltaDistY stepX stepY levelMap s)
    else some s

/-- How often one axis can still be advanced before its side distance
passes `maxDistance`: the fuel contribution of one axis. -/
noncomputable def axisFuel (maxDistance : ℝ) (sideDist delta : Option ℝ) : ℕ :=
  match sideDist, delta with
  | some sd, some d => (⌈(maxDistance - sd) / d⌉).toNat + 1
  | _, _ => 0

/-- The fuel `castRay` hands to `ddaLoop`. -/
noncomputable def ddaFuel (maxDistance : ℝ) (su : DdaSetup) : ℕ :=
  axisFuel maxDistance su.state.sideDistX su.deltaDistX +
    axisFuel maxDistance su.state.sideDistY su.deltaDistY + 1

/-- The whole DDA run of `castRay`: setup from `(cos angle, sin angle)`,
then the loop with its computed fuel. -/
noncomputable def ddaRun (origin : Vector2) (angle maxDistance : ℝ)
    (levelMap : LevelMap) : Option DdaState :=
  let su := ddaSetup origin (Real.cos angle) (Real.sin angle)
  ddaLoop su.deltaDistX su.deltaDistY su.stepX su.stepY maxDistance levelMap
    (ddaFuel maxDistance su) su.state

/-- The post-loop part of `castRay`: hit position from the raw distance,
wall type `0` unless a wall was hit, and the returned distance clamped
from below by `MIN_DISTANCE` (note: not clamped from above). -/
noncomputable def ddaFinish (origin : Vector2) (angle : ℝ) (levelMap : LevelMap)
    (s : DdaState) : Ray :=
  { angle := angle
    distance := max s.distance MIN_DISTANCE
    wallHit := ⟨origin.x + Real.cos angle * s.distance, origin.y + Real.sin angle * s.distance⟩
    wallType := if s.hit then getTileValue s.mapX s.mapY levelMap else 0
    side := s.side }

/-- `castRay(origin, angle, levelMap, maxDistance)`. -/
noncomputable def castRay (origin : Vector2) (angle : ℝ) (levelMap : LevelMap)
    (maxDistance : ℝ) : Ray :=
  ddaFinish origin angle levelMap
    ((ddaRun origin angle maxDistance levelMap).getD
      (ddaSetup origin (Real.cos angle) (Real.sin angle)).state)

/-- `castAllRays(playerPosition, playerRotation, config, levelMap)`: one
ray per screen column, left to right. -/
noncomputable def castAllRays (playerPosition : Vector2) (playerRotation : ℝ)
    (config : RaycastConfig) (levelMap : LevelMap) : List Ray :=
  (List.range config.screenWidth).map (fun x : ℕ =>
    castRay playerPosition
      (playerRotation + (((x : ℝ) / (config.screenWidth : ℝ)) - 0.5) * config.fov)
      levelMap config.maxRenderDistance)

/-! ## Enemy AI state machine (src/game/enemy.ts, src/game/enemyManager.ts) -/

/-- `EnemyState`. -/
inductive EnemyState where
  | idle
  | pursuing
  | attacking
  | dead
deriving DecidableEq

/-- `Enemy`.  The source's string-valued `id` and `spriteId` are embedded
as numerals (their values never influence the verified logic). -/
structure Enemy where
  id : ℕ
  position : Vector2
  rotation : ℝ
  health : ℝ
  maxHealth : ℝ
  damage : ℝ
  speed : ℝ
  attackRange : ℝ
  detectionRange : ℝ
  state : EnemyState
  spriteId : ℕ
  pointValue : ℝ

/-- `Player`: only the fields the enemy AI reads are modelled (the enemy
code reads `player.position` only; `rotation` is kept for completeness). -/
structure Player where
  position : Vector2
  rotation : ℝ

/-- `DEFAULT_ENEMY_CONFIG.radius`, the collision radius used by
`moveTowardPlayer`. -/
noncomputable def defaultEnemyRadius : ℝ := 0.3

/-- `Math.atan2(y, x)`, embedded as the complex argument of `x + i·y`. -/
noncomputable def atan2 (y x : ℝ) : ℝ := Complex.arg ⟨x, y⟩

/-- `canSeePlayer(enemy, player, level)`. -/
noncomputable def canSeePlayer (enemy : Enemy) (player : Player) (level : LevelMap) : Bool :=
  if enemy.state = EnemyState.dead then false
  else
    let toPlayer := subtract player.position enemy.position
    let dist := distance enemy.position player.position
    if dist > enemy.detectionRange then false
    else if dist < 0.1 then true
    else
      let direction := normalize toPlayer
      match raycast enemy.position direction (dist + 0.1) level with
      | none => true
      | some hit => if hit.distance ≥ dist - 0.1 then true else false

/-- Modelled from the spec (§4.5): `canSeePlayer` is false if the enemy is
dead; false if `dist > detectionRange`; true unconditionally if
`dist < 0.1`; otherwise a ray is cast from the enemy toward the player
with max distance `dist + 0.1`, and the player is visible iff there is no
wall hit or the wall hit distance is at least `dist - 0.1`. -/
noncomputable def canSeePlayerSpec (enemy : Enemy) (player : Player)
    (level : LevelMap) : Bool :=
  if enemy.state = EnemyState.dead then false
  else if distance enemy.position player.position > enemy.detectionRange then false
  else if distance enemy.position player.position < 0.1 then true
  else
    match raycast enemy.position
        (normalize (subtract player.position enemy.position))
        (distance enemy.position player.position + 0.1) level with
    | none => true
    | some hit =>
        if hit.distance ≥ distance enemy.position player.position - 0.1 then true else false

/-- `getDirectionToPlayer(enemy, player)`. -/
noncomputable def getDirectionToPlayer (enemy : Enemy) (player : Player) : Vector2 :=
  normalize (subtract player.position enemy.position)

/-- `determineNextState(enemy, player, level)`. -/
noncomputable def determineNextState (enemy : Enemy) (player : Player)
    (level : LevelMap) : EnemyState :=
  if enemy.state = EnemyState.dead ∨ enemy.health ≤ 0 then EnemyState.dead
  else
    let dist := distance enemy.position player.position
    if canSeePlayer enemy player level then
      if dist ≤ enemy.attackRange then EnemyState.attacking else EnemyState.pursuing
    else EnemyState.idle

/-- `moveTowardPlayer(enemy, player, deltaTime, level)`. -/
noncomputable def moveTowardPlayer (enemy : Enemy) (player : Player) (deltaTime : ℝ)
    (level : LevelMap) : Enemy :=
  if enemy.state = EnemyState.dead then enemy
  else
    let direction := getDirectionToPlayer enemy player
    let movement := multiply direction (enemy.speed * deltaTime)
    let desiredPosition := add enemy.position movement
    let newPosition := moveWithCollision enemy.position desiredPosition defaultEnemyRadius level
    { enemy with position := newPosition, rotation := atan2 direction.y direction.x }

/-- `takeDamage(enemy, amount)`. -/
noncomputable def takeDamage (enemy : Enemy) (amount : ℝ) : Enemy :=
  if amount < 0 ∨ enemy.state = EnemyState.dead then enemy
  else
    let newHealth := max 0 (enemy.health - amount)
    let newState := if newHealth ≤ 0 then EnemyState.dead else enemy.state
    { enemy with health := newHealth, state := newState }

/-- `isInAttackRange(enemy, player)`. -/
noncomputable def isInAttackRange (enemy : Enemy) (player : Player) : Bool :=
  if distance enemy.position player.position ≤ enemy.attackRange then true else false

/-- `AttackResult`. -/
structure AttackResult where
  attacked : Bool
  damage : ℝ

/-- `performAttack(enemy, player)`. -/
noncomputable def performAttack (enemy : Enemy) (player : Player) : AttackResult :=
  if enemy.state = EnemyState.dead then ⟨false, 0⟩
  else if enemy.state ≠ EnemyState.attacking ∨ ¬ isInAttackRange enemy player then ⟨false, 0⟩
  else ⟨true, enemy.damage⟩

/-- `updateEnemy(enemy, player, level, deltaTime)`. -/
noncomputable def updateEnemy (enemy : Enemy) (player : Player) (level : LevelMap)
    (deltaTime : ℝ) : Enemy :=
  if enemy.state = EnemyState.dead ∨ enemy.health ≤ 0 then
    { enemy with state := EnemyState.dead }
  else
    let newState := determineNextState enemy player level
    let updatedEnemy := { enemy with state := newState }
    if newState = EnemyState.pursuing then
      moveTowardPlayer updatedEnemy player deltaTime level
    else if newState = EnemyState.attacking then
      let direction := getDirectionToPlayer enemy player
      { updatedEnemy with rotation := atan2 direction.y direction.x }
    else updatedEnemy

/-- `EnemyUpdateResult`. -/
structure EnemyUpdateResult where
  enemy : Enemy
  attack : AttackResult

/-- `updateEnemyWithAttack(enemy, player, level, deltaTime)`. -/
noncomputable def updateEnemyWithAttack (enemy : Enemy) (player : Player)
    (level : LevelMap) (deltaTime : ℝ) : EnemyUpdateResult :=
  let updatedEnemy := updateEnemy enemy player level deltaTime
  ⟨updatedEnemy, performAttack updatedEnemy player⟩

/-- `updateAllEnemies(enemies, player, level, deltaTime)` (enemy manager):
a plain `map`, each enemy updated against the same player/level
snapshot. -/
noncomputable def updateAllEnemies (enemies : List Enemy) (player : Player)
    (level : LevelMap) (deltaTime : ℝ) : List EnemyUpdateResult :=
  enemies.map (fun enemy => updateEnemyWithAttack enemy player level deltaTime)

/-! ## Concrete levels used by witnesses and counterexamples -/

/-- A 3×3 level whose border is wall and whose center cell is open. -/
def demoBorder : LevelMap := ⟨3, 3, [[1, 1, 1], [1, 0, 1], [1, 1, 1]]⟩

/-- A 3×3 level that is entirely open (its implicit boundary is still
solid, but nothing closer). -/
def demoOpen3 : LevelMap := ⟨3, 3, [[0, 0, 0], [0, 0, 0], [0, 0, 0]]⟩

/-- A 3×3 level with two opposing wall cells, `(0,1)` and `(2,1)`, on
either side of the open center — the geometry whose push-out normals
cancel. -/
def demoCorridor : LevelMap := ⟨3, 3, [[0, 0, 0], [1, 0, 1], [0, 0, 0]]⟩

/-! ## Scan lemmas for `checkWallCollision` -/

theorem mem_intRange {a b z : ℤ} : z ∈ intRange a b ↔ a ≤ z ∧ z ≤ b := by
  unfold intRange
  rw [List.mem_map]
  constructor
  · rintro ⟨i, hi, rfl⟩
    rw [List.mem_range] at hi
    omega
  · rintro ⟨h1, h2⟩
    exact ⟨(z - a).toNat, by rw [List.mem_range]; omega, by omega⟩

theorem mem_cellList {minX maxX minY maxY gx gy : ℤ} :
    (gx, gy) ∈ cellList minX maxX minY maxY ↔
      (minX ≤ gx ∧ gx ≤ maxX) ∧ (minY ≤ gy ∧ gy ≤ maxY) := by
  simp only [cellList, List.mem_flatMap, List.mem_map, Prod.mk.injEq, mem_intRange]
  constructor
  · rintro ⟨gy', hy, gx', hx, rfl, rfl⟩
    exact ⟨hx, hy⟩
  · rintro ⟨hx, hy⟩
    exact ⟨gy, hy, gx, hx, rfl, rfl⟩

theorem wallCellUpdate_collided_of {position : Vector2} {radius : ℝ} {gx gy : ℤ}
    {s : ScanState}
    (h : length (subtract position (closestPointOnCell gx gy position)) < radius) :
    (wallCellUpdate position radius gx gy s).collided = true := by
  simp only [wallCellUpdate]
  rw [if_pos h]

theorem wallScanStep_collided_mono {position : Vector2} {radius : ℝ} {level : LevelMap}
    {s : ScanState} {c : ℤ × ℤ} (h : s.collided = true) :
    (wallScanStep position radius level s c).collided = true := by
  simp only [wallScanStep, wallCellUpdate]
  split
  · split
    · rfl
    · exact h
  · exact h

theorem foldl_scan_collided_mono {position : Vector2} {radius : ℝ} {level : LevelMap} :
    ∀ (l : List (ℤ × ℤ)) (s : ScanState), s.collided = true →
      (l.foldl (wallScanStep position radius level) s).collided = true := by
  intro l
  induction l with
  | nil => intro s h; exact h
  | cons c t ih =>
    intro s h
    exact ih _ (wallScanStep_collided_mono h)

theorem foldl_scan_trigger {position : Vector2} {radius : ℝ} {level : LevelMap} :
    ∀ (l : List (ℤ × ℤ)) (s : ScanState) (c : ℤ × ℤ), c ∈ l →
      isWall c.1 c.2 level = true →
      length (subtract position (closestPointOnCell c.1 c.2 position)) < radius →
      (l.foldl (wallScanStep position radius level) s).collided = true := by
  intro l
  induction l with
  | nil => intro s c hc; exact absurd hc (List.not_mem_nil c)
  | cons c0 t ih =>
    intro s c hc hw hd
    rcases List.mem_cons.mp hc with rfl | hmem
    · rw [List.foldl_cons]
      apply foldl_scan_collided_mono
      simp only [wallScanStep]
      rw [if_pos hw]
      exact wallCellUpdate_collided_of hd
    · exact ih _ c hmem hw hd

/-- The absolute per-axis offset to a cell's closest point is at most the
euclidean distance to it. -/
theorem abs_le_length (v : Vector2) : |v.x| ≤ length v ∧ |v.y| ≤ length v := by
  constructor
  · rw [length, ← Real.sqrt_mul_self_eq_abs]
    exact Real.sqrt_le_sqrt (by nlinarith [mul_self_nonneg v.y])
  · rw [length, ← Real.sqrt_mul_self_eq_abs]
    exact Real.sqrt_le_sqrt (by nlinarith [mul_self_nonneg v.x])

/-! ## Claims about the collision system -/

/-- Soundness of the scan: an overlapping wall cell always lies inside the
scanned bounding box and flips the `collided` flag. -/
theorem checkWallCollision_overlap_collided (position : Vector2) (radius : ℝ)
    (level : LevelMap) (gx gy : ℤ) (hw : isWall gx gy level = true)
    (hov : length (subtract position (closestPointOnCell gx gy position)) < radius) :
    (checkWallCollision position radius level).collided = true := by
  have hcx_lb : (gx : ℝ) ≤ (closestPointOnCell gx gy position).x := le_max_left _ _
  have hcx_ub : (closestPointOnCell gx gy position).x ≤ (gx : ℝ) + 1 :=
    max_le (by linarith) (min_le_right _ _)
  have hcy_lb : (gy : ℝ) ≤ (closestPointOnCell gx gy position).y := le_max_left _ _
  have hcy_ub : (closestPointOnCell gx gy position).y ≤ (gy : ℝ) + 1 :=
    max_le (by linarith) (min_le_right _ _)
  have habs := abs_le_length (subtract position (closestPointOnCell gx gy position))
  have hdx : |position.x - (closestPointOnCell gx gy position).x| < radius :=
    lt_of_le_of_lt (by simpa [subtract] using habs.1) hov
  have hdy : |position.y - (closestPointOnCell gx gy position).y| < radius :=
    lt_of_le_of_lt (by simpa [subtract] using habs.2) hov
  rw [abs_lt] at hdx hdy
  simp only [checkWallCollision, wallScan]
  apply foldl_scan_trigger _ _ (gx, gy) _ hw hov
  rw [mem_cellList]
  refine ⟨⟨?_, ?_⟩, ?_, ?_⟩
  · rw [Int.floor_le_iff]
    linarith [hdx.1]
  · rw [Int.le_floor]
    linarith [hdx.2]
  · rw [Int.floor_le_iff]
    linarith [hdy.1]
  · rw [Int.le_floor]
    linarith [hdy.2]

/-- C2: if the circle at `position` with `radius` geometrically overlaps a
wall cell — the distance from its center to the closest point of that
cell's unit square is below `radius` — then `checkWallCollision` reports
`collided = true`. -/
theorem C2_checkWallCollision_sound (position : Vector2) (radius : ℝ)
    (level : LevelMap) (gx gy : ℤ) (hw : isWall gx gy level = true)
    (hov : length (subtract position (closestPointOnCell gx gy position)) < radius) :
    (checkWallCollision position radius level).collided = true :=
  checkWallCollision_overlap_collided position radius level gx gy hw hov

/-- C2 witness: the center of an all-wall border cell overlaps it at
distance 0, and `checkWallCollision` flags the collision. -/
theorem C2_checkWallCollision_sound_witness :
    isWall 0 0 demoBorder = true ∧
    length (subtract ⟨0.5, 0.5⟩ (closestPointOnCell 0 0 ⟨0.5, 0.5⟩)) < (0.3 : ℝ) ∧
    (checkWallCollision ⟨0.5, 0.5⟩ 0.3 demoBorder).collided = true := by
  have hov : length (subtract ⟨0.5, 0.5⟩ (closestPointOnCell 0 0 ⟨0.5, 0.5⟩)) < (0.3 : ℝ) := by
    have h1 : closestPointOnCell 0 0 (⟨0.5, 0.5⟩ : Vector2) = ⟨0.5, 0.5⟩ := by
      simp only [closestPointOnCell]
      refine Vector2.ext ?_ ?_ <;> norm_num
    rw [h1]
    simp only [subtract, length]
    norm_num [Real.sqrt_zero]
  exact ⟨by decide, hov,
    C2_checkWallCollision_sound ⟨0.5, 0.5⟩ 0.3 demoBorder 0 0 (by decide) hov⟩

/-- A position whose containing cell is a wall always collides (the
containing cell is scanned and its closest point is the position itself). -/
theorem checkWallCollision_center_cell {position : Vector2} {radius : ℝ}
    {level : LevelMap} (h0 : 0 < radius)
    (hw : isWall ⌊position.x⌋ ⌊position.y⌋ level = true) :
    (checkWallCollision position radius level).collided = true := by
  apply checkWallCollision_overlap_collided position radius level _ _ hw
  have hx : (closestPointOnCell ⌊position.x⌋ ⌊position.y⌋ position).x = position.x := by
    simp only [closestPointOnCell]
    rw [min_eq_left (le_of_lt (Int.lt_floor_add_one position.x)),
      max_eq_right (Int.floor_le position.x)]
  have hy : (closestPointOnCell ⌊position.x⌋ ⌊position.y⌋ position).y = position.y := by
    simp only [closestPointOnCell]
    rw [min_eq_left (le_of_lt (Int.lt_floor_add_one position.y)),
      max_eq_right (Int.floor_le position.y)]
  rw [show subtract position (closestPointOnCell ⌊position.x⌋ ⌊position.y⌋ position)
      = ⟨0, 0⟩ by rw [subtract, hx, hy]; exact Vector2.ext (by ring) (by ring)]
  simpa [length] using h0

/-- Contrapositive used on every return path of `moveWithCollision`: a
position that passes the collision check has a wall-free containing
cell. -/
theorem cell_free_of_not_collided {position : Vector2} {radius : ℝ} {level : LevelMap}
    (h0 : 0 < radius) (h : (checkWallCollision position radius level).collided = false) :
    isWall ⌊position.x⌋ ⌊position.y⌋ level = false := by
  cases hw : isWall ⌊position.x⌋ ⌊position.y⌋ level with
  | false => rfl
  | true => rw [checkWallCollision_center_cell h0 hw] at h; cases h

/-- C1 (amended): provided the current position's containing cell is not a
wall, `moveWithCollision` returns a position whose containing cell is not
a wall, for every level, every radius in `(0, 0.5)` and every desired
position.  (Without the proviso on the current cell the claim fails: the
full-stop fallback returns the current position unchanged, see the
counterexample.) -/
theorem C1_moveWithCollision_cell_free (level : LevelMap)
    (currentPosition desiredPosition : Vector2) (radius : ℝ)
    (h0 : 0 < radius) (_h05 : radius < 0.5)
    (hcur : isWall ⌊currentPosition.x⌋ ⌊currentPosition.y⌋ level = false) :
    isWall ⌊(moveWithCollision currentPosition desiredPosition radius level).x⌋
      ⌊(moveWithCollision currentPosition desiredPosition radius level).y⌋ level = false := by
  simp only [moveWithCollision]
  split
  · split
    · split
      · next h3 => exact cell_free_of_not_collided h0 (by simpa using h3)
      · split
        · next h4 => exact cell_free_of_not_collided h0 (by simpa using h4)
        · exact hcur
    · next h2 => exact cell_free_of_not_collided h0 (by simpa using h2)
  · next h1 => exact cell_free_of_not_collided h0 (by simpa using h1)

/-- C1 witness: from the open center of the bordered level, a move toward
the east wall ends in a wall-free cell. -/
theorem C1_moveWithCollision_cell_free_witness :
    0 < (0.3 : ℝ) ∧ (0.3 : ℝ) < 0.5 ∧
    isWall ⌊(1.5 : ℝ)⌋ ⌊(1.5 : ℝ)⌋ demoBorder = false ∧
    isWall ⌊(moveWithCollision ⟨1.5, 1.5⟩ ⟨2.2, 1.5⟩ 0.3 demoBorder).x⌋
      ⌊(moveWithCollision ⟨1.5, 1.5⟩ ⟨2.2, 1.5⟩ 0.3 demoBorder).y⌋ demoBorder = false := by
  have hfl : ⌊(1.5 : ℝ)⌋ = 1 := by
    rw [Int.floor_eq_iff]
    norm_num
  have hc : isWall ⌊(1.5 : ℝ)⌋ ⌊(1.5 : ℝ)⌋ demoBorder = false := by rw [hfl]; decide
  refine ⟨by norm_num, by norm_num, hc, ?_⟩
  exact C1_moveWithCollision_cell_free demoBorder ⟨1.5, 1.5⟩ ⟨2.2, 1.5⟩ 0.3
    (by norm_num) (by norm_num) hc

/-! ## Claims about the enemy AI -/

/-- C7: `canSeePlayer` returns false if the enemy is dead; false if the
enemy-to-player distance exceeds `detectionRange`; true unconditionally
below distance `0.1`; and otherwise casts a ray toward the player with max
distance `dist + 0.1` and reports visibility exactly when there is no wall
hit or the hit is at distance at least `dist - 0.1` — it coincides with
the spec-worded decision procedure `canSeePlayerSpec`. -/
theorem C7_canSeePlayer_matches_spec (enemy : Enemy) (player : Player)
    (level : LevelMap) : canSeePlayer enemy player level = canSeePlayerSpec enemy player level := rfl

/-- C8: updating a whole enemy collection for one tick is a pointwise
`updateEnemyWithAttack` against the same pre-tick player and level
snapshot: the i-th result depends only on the i-th input enemy, so the
iteration order cannot change any individual enemy's resulting pose,
health, or state. -/
theorem C8_updateAllEnemies_pointwise (enemies : List Enemy) (player : Player)
    (level : LevelMap) (deltaTime : ℝ) (i : ℕ) :
    (updateAllEnemies enemies player level deltaTime).length = enemies.length ∧
    (updateAllEnemies enemies player level deltaTime)[i]? =
      (enemies[i]?).map (fun e => updateEnemyWithAttack e player level deltaTime) := by
  refine ⟨?_, ?_⟩
  · simp [updateAllEnemies]
  · simp [updateAllEnemies]

/-- C10: `takeDamage` changes at most the `health` and `state` fields —
every other field of the returned enemy is identical to the input's. -/
theorem C10_takeDamage_frame (enemy : Enemy) (amount : ℝ) :
    (takeDamage enemy amount).id = enemy.id ∧
    (takeDamage enemy amount).position = enemy.position ∧
    (takeDamage enemy amount).rotation = enemy.rotation ∧
    (takeDamage enemy amount).maxHealth = enemy.maxHealth ∧
    (takeDamage enemy amount).damage = enemy.damage ∧
    (takeDamage enemy amount).speed = enemy.speed ∧
    (takeDamage enemy amount).attackRange = enemy.attackRange ∧
    (takeDamage enemy amount).detectionRange = enemy.detectionRange ∧
    (takeDamage enemy amount).spriteId = enemy.spriteId ∧
    (takeDamage enemy amount).pointValue = enemy.pointValue := by
  unfold takeDamage
  split <;> simp

/-- C6: for damage `d ≥ 0` against an enemy satisfying the data-model
invariant that a dead enemy has health `0`, `takeDamage` yields health
`max 0 (h - d)`; a negative amount is a no-op; health reaching `0` flips
the state to `dead`; and the dead state is irreversible — subsequent
`takeDamage` or `updateEnemy` calls leave the state `dead` and the health
at `0`. -/
theorem C6_damage_monotone_dead_irreversible (e : Enemy) (d : ℝ) (p : Player)
    (l : LevelMap) (dt : ℝ) :
    (0 ≤ d → (e.state = EnemyState.dead → e.health = 0) →
      (takeDamage e d).health = max 0 (e.health - d)) ∧
    (d < 0 → takeDamage e d = e) ∧
    (0 ≤ d → e.state ≠ EnemyState.dead → e.health - d ≤ 0 →
      (takeDamage e d).state = EnemyState.dead ∧ (takeDamage e d).health = 0) ∧
    (e.state = EnemyState.dead → e.health = 0 →
      (takeDamage e d).state = EnemyState.dead ∧ (takeDamage e d).health = 0 ∧
      (updateEnemy e p l dt).state = EnemyState.dead ∧
      (updateEnemy e p l dt).health = 0) := by
  refine ⟨?_, ?_, ?_, ?_⟩
  · intro hd hinv
    by_cases hdead : e.state = EnemyState.dead
    · rw [takeDamage, if_pos (Or.inr hdead), hinv hdead]
      rw [max_eq_left (by linarith)]
    · rw [takeDamage, if_neg (by push_neg; exact ⟨by linarith, hdead⟩)]
  · intro hd
    rw [takeDamage, if_pos (Or.inl hd)]
  · intro hd hdead hh
    rw [takeDamage, if_neg (by push_neg; exact ⟨by linarith, hdead⟩)]
    have hmax : max 0 (e.health - d) = 0 := max_eq_left hh
    refine ⟨?_, by simpa using hmax⟩
    simp only [hmax]
    simp
  · intro hdead hh
    refine ⟨?_, ?_, ?_, ?_⟩
    · rw [takeDamage, if_pos (Or.inr hdead), hdead]
    · rw [takeDamage, if_pos (Or.inr hdead), hh]
    · rw [updateEnemy, if_pos (Or.inl hdead)]
    · rw [updateEnemy, if_pos (Or.inl hdead)]
      simpa using hh

/-- C6 witness: a live enemy with health 50 hit for 60 damage ends at
health `max 0 (50 - 60)`, and a dead enemy at health 0 stays dead at
health 0 under both `takeDamage` and `updateEnemy`. -/
theorem C6_damage_monotone_dead_irreversible_witness :
    (takeDamage ⟨0, ⟨1.5, 1.5⟩, 0, 50, 50, 10, 1.5, 1.5, 8, EnemyState.idle, 0, 100⟩ 60).health
      = max 0 (50 - 60) ∧
    (takeDamage ⟨0, ⟨1.5, 1.5⟩, 0, 0, 50, 10, 1.5, 1.5, 8, EnemyState.dead, 0, 100⟩ 60).state
      = EnemyState.dead ∧
    (updateEnemy ⟨0, ⟨1.5, 1.5⟩, 0, 0, 50, 10, 1.5, 1.5, 8, EnemyState.dead, 0, 100⟩
      ⟨⟨1.5, 1.5⟩, 0⟩ demoBorder 1).health = 0 := by
  refine ⟨?_, ?_, ?_⟩
  · exact (C6_damage_monotone_dead_irreversible
      ⟨0, ⟨1.5, 1.5⟩, 0, 50, 50, 10, 1.5, 1.5, 8, EnemyState.idle, 0, 100⟩ 60
      ⟨⟨1.5, 1.5⟩, 0⟩ demoBorder 1).1 (by norm_num) (by intro h; simp at h)
  · exact ((C6_damage_monotone_dead_irreversible
      ⟨0, ⟨1.5, 1.5⟩, 0, 0, 50, 10, 1.5, 1.5, 8, EnemyState.dead, 0, 100⟩ 60
      ⟨⟨1.5, 1.5⟩, 0⟩ demoBorder 1).2.2.2 rfl rfl).1
  · exact ((C6_damage_monotone_dead_irreversible
      ⟨0, ⟨1.5, 1.5⟩, 0, 0, 50, 10, 1.5, 1.5, 8, EnemyState.dead, 0, 100⟩ 60
      ⟨⟨1.5, 1.5⟩, 0⟩ demoBorder 1).2.2.2 rfl rfl).2.2.2

/-! ## DDA loop lemmas for `castRay` -/

/-- A state that fails the loop condition is returned unchanged, whatever
the fuel. -/
theorem ddaLoop_not_continue {dx dy : Option ℝ} {sx sy : ℤ} {maxD : ℝ}
    {lvl : LevelMap} {fuel : ℕ} {s : DdaState}
    (h : ¬ (s.hit = false ∧ s.distance < maxD)) :
    ddaLoop dx dy sx sy maxD lvl fuel s = some s := by
  cases fuel <;> simp [ddaLoop, h]

/-- The loop only returns states that fail its condition: a returned
no-hit state has travelled at least `maxDistance`. -/
theorem ddaLoop_exit {dx dy : Option ℝ} {sx sy : ℤ} {maxD : ℝ} {lvl : LevelMap} :
    ∀ {fuel : ℕ} {s s' : DdaState}, ddaLoop dx dy sx sy maxD lvl fuel s = some s' →
      ¬ (s'.hit = false ∧ s'.distance < maxD) := by
  intro fuel
  induction fuel with
  | zero =>
    intro s s' h
    rw [ddaLoop] at h
    split at h
    · cases h
    · next hc => cases h; exact hc
  | succ n ih =>
    intro s s' h
    rw [ddaLoop] at h
    split at h
    · exact ih h
    · next hc => cases h; exact hc

/-- Every stepped state records whether its cell is a wall in `hit`; the
loop therefore preserves the invariant that `hit` implies a wall at the
current cell. -/
theorem ddaLoop_hit_wall {dx dy : Option ℝ} {sx sy : ℤ} {maxD : ℝ} {lvl : LevelMap} :
    ∀ {fuel : ℕ} {s s' : DdaState},
      (s.hit = true → isWallTile s.mapX s.mapY lvl = true) →
      ddaLoop dx dy sx sy maxD lvl fuel s = some s' →
      (s'.hit = true → isWallTile s'.mapX s'.mapY lvl = true) := by
  intro fuel
  induction fuel with
  | zero =>
    intro s s' hs h
    rw [ddaLoop] at h
    split at h
    · cases h
    · cases h; exact hs
  | succ n ih =>
    intro s s' hs h
    rw [ddaLoop] at h
    split at h
    · exact ih (fun hh => hh) h
    · cases h; exact hs

/-- One axis advance consumes exactly one unit of that axis's fuel while
the travelled distance is still short of `maxDistance`. -/
theorem axisFuel_decrement {maxD sd d : ℝ} (hd : 0 < d) (hsd : sd < maxD) :
    axisFuel maxD (some (sd + d)) (some d) + 1 = axisFuel maxD (some sd) (some d) := by
  simp only [axisFuel]
  have h1 : (0 : ℝ) < (maxD - sd) / d := div_pos (by linarith) hd
  have hk : 1 ≤ ⌈(maxD - sd) / d⌉ := Int.ceil_pos.mpr h1
  have h2 : (maxD - (sd + d)) / d = (maxD - sd) / d - 1 := by
    rw [show maxD - (sd + d) = (maxD - sd) - d by ring, sub_div, div_self (ne_of_gt hd)]
  rw [h2, Int.ceil_sub_one]
  omega

/-- `ddaStep` when the X side distance is smaller. -/
theorem ddaStep_pick_x {dx dy : Option ℝ} {sx sy : ℤ} {lvl : LevelMap} {s : DdaState}
    (h : oLt s.sideDistX s.sideDistY) :
    ddaStep dx dy sx sy lvl s =
      { s with distance := s.sideDistX.getD 0, sideDistX := oAdd s.sideDistX dx,
               mapX := s.mapX + sx, side := Side.vertical,
               hit := isWallTile (s.mapX + sx) s.mapY lvl } := by
  simp only [ddaStep]
  rw [if_pos h]

/-- `ddaStep` when the Y side distance is not larger. -/
theorem ddaStep_pick_y {dx dy : Option ℝ} {sx sy : ℤ} {lvl : LevelMap} {s : DdaState}
    (h : ¬ oLt s.sideDistX s.sideDistY) :
    ddaStep dx dy sx sy lvl s =
      { s with distance := s.sideDistY.getD 0, sideDistY := oAdd s.sideDistY dy,
               mapY := s.mapY + sy, side := Side.horizontal,
               hit := isWallTile s.mapX (s.mapY + sy) lvl } := by
  simp only [ddaStep]
  rw [if_neg h]

/-- Fuel sufficiency for `castRay`'s DDA loop: with per-axis fuel at most
the supplied fuel (and positive finite deltas, at most one of them
infinite), the loop never exhausts its fuel. -/
theorem ddaLoop_isSome (dx dy : Option ℝ) (sx sy : ℤ) (maxD : ℝ) (lvl : LevelMap)
    (hdx : ∀ d, dx = some d → 0 < d) (hdy : ∀ d, dy = some d → 0 < d)
    (hne : ¬ (dx = none ∧ dy = none)) :
    ∀ (fuel : ℕ) (s : DdaState),
      (s.sideDistX = none ↔ dx = none) → (s.sideDistY = none ↔ dy = none) →
      axisFuel maxD s.sideDistX dx + axisFuel maxD s.sideDistY dy ≤ fuel →
      (ddaLoop dx dy sx sy maxD lvl fuel s).isSome = true := by
  intro fuel
  induction fuel with
  | zero =>
    intro s hx hy hb
    rw [ddaLoop]
    split
    · exfalso
      have hax : axisFuel maxD s.sideDistX dx = 0 := by omega
      have hay : axisFuel maxD s.sideDistY dy = 0 := by omega
      apply hne
      constructor
      · by_contra hdx0
        rcases Option.ne_none_iff_exists'.mp hdx0 with ⟨d, rfl⟩
        rcases Option.ne_none_iff_exists'.mp ((not_iff_not.mpr hx).mpr hdx0) with ⟨sd, hsd⟩
        rw [hsd] at hax
        simp [axisFuel] at hax
      · by_contra hdy0
        rcases Option.ne_none_iff_exists'.mp hdy0 with ⟨d, rfl⟩
        rcases Option.ne_none_iff_exists'.mp ((not_iff_not.mpr hy).mpr hdy0) with ⟨sd, hsd⟩
        rw [hsd] at hay
        simp [axisFuel] at hay
    · simp
  | succ n ih =>
    intro s hx hy hb
    rw [ddaLoop]
    split
    · by_cases hpick : oLt s.sideDistX s.sideDistY
      · -- the X axis is advanced; its side distance must be finite
        rcases hxv : s.sideDistX with _ | sdx
        · rw [hxv] at hpick; exact absurd hpick (by simp [oLt])
        · obtain ⟨d, rfl⟩ : ∃ d, dx = some d := by
            rcases hdd : dx with _ | d
            · exact absurd (hx.mpr hdd) (by simp [hxv])
            · exact ⟨d, rfl⟩
          have hd : 0 < d := hdx d rfl
          rw [ddaStep_pick_x hpick]
          by_cases hshort : sdx < maxD
          · apply ih
            · simp [hxv, oAdd]
            · simpa using hy
            · have hdec := axisFuel_decrement hd hshort
              rw [hxv] at hb ⊢
              simp only [oAdd]
              omega
          · rw [ddaLoop_not_continue]
            · simp
            · rw [hxv]
              simp only [Option.getD_some]
              exact fun hcd => hshort hcd.2
      · -- the Y axis is advanced; its side distance must be finite
        rcases hyv : s.sideDistY with _ | sdy
        · exfalso
          have hdyn : dy = none := hy.mp hyv
          have hdxn : dx ≠ none := fun hdxn => hne ⟨hdxn, hdyn⟩
          rcases Option.ne_none_iff_exists'.mp ((not_iff_not.mpr hx).mpr hdxn) with ⟨sdx, hsdx⟩
          rw [hsdx, hyv] at hpick
          exact hpick (by simp [oLt])
        · obtain ⟨d, rfl⟩ : ∃ d, dy = some d := by
            rcases hdd : dy with _ | d
            · exact absurd (hy.mpr hdd) (by simp [hyv])
            · exact ⟨d, rfl⟩
          have hd : 0 < d := hdy d rfl
          rw [ddaStep_pick_y hpick]
          by_cases hshort : sdy < maxD
          · apply ih
            · simpa using hx
            · simp [hyv, oAdd]
            · have hdec := axisFuel_decrement hd hshort
              rw [hyv] at hb ⊢
              simp only [oAdd]
              omega
          · rw [ddaLoop_not_continue]
            · simp
            · rw [hyv]
              simp only [Option.getD_some]
              exact fun hcd => hshort hcd.2
    · simp

/-- Unfolding `ddaRun` to the loop it runs. -/
theorem ddaRun_eq (origin : Vector2) (angle maxDistance : ℝ) (levelMap : LevelMap) :
    ddaRun origin angle maxDistance levelMap =
      ddaLoop (ddaSetup origin (Real.cos angle) (Real.sin angle)).deltaDistX
        (ddaSetup origin (Real.cos angle) (Real.sin angle)).deltaDistY
        (ddaSetup origin (Real.cos angle) (Real.sin angle)).stepX
        (ddaSetup origin (Real.cos angle) (Real.sin angle)).stepY
        maxDistance levelMap
        (ddaFuel maxDistance (ddaSetup origin (Real.cos angle) (Real.sin angle)))
        (ddaSetup origin (Real.cos angle) (Real.sin angle)).state := rfl

theorem ddaSetup_deltaDistX (origin : Vector2) (rx ry : ℝ) :
    (ddaSetup origin rx ry).deltaDistX = if rx = 0 then none else some |1 / rx| := rfl

theorem ddaSetup_deltaDistY (origin : Vector2) (rx ry : ℝ) :
    (ddaSetup origin rx ry).deltaDistY = if ry = 0 then none else some |1 / ry| := rfl

/-- An initial side distance is infinite exactly when its axis delta is. -/
theorem ddaSetup_sideDistX_none_iff (origin : Vector2) (rx ry : ℝ) :
    ((ddaSetup origin rx ry).state.sideDistX = none ↔
      (ddaSetup origin rx ry).deltaDistX = none) := by
  simp only [ddaSetup]
  split <;> simp

theorem ddaSetup_sideDistY_none_iff (origin : Vector2) (rx ry : ℝ) :
    ((ddaSetup origin rx ry).state.sideDistY = none ↔
      (ddaSetup origin rx ry).deltaDistY = none) := by
  simp only [ddaSetup]
  split <;> simp

/-- The finite axis deltas `|1/dir|` are positive. -/
theorem ddaSetup_delta_pos (origin : Vector2) (rx ry : ℝ) :
    (∀ d, (ddaSetup origin rx ry).deltaDistX = some d → 0 < d) ∧
    (∀ d, (ddaSetup origin rx ry).deltaDistY = some d → 0 < d) := by
  constructor
  · intro d hd
    rw [ddaSetup_deltaDistX] at hd
    split at hd
    · cases hd
    · next hne =>
      cases hd
      exact abs_pos.mpr (one_div_ne_zero hne)
  · intro d hd
    rw [ddaSetup_deltaDistY] at hd
    split at hd
    · cases hd
    · next hne =>
      cases hd
      exact abs_pos.mpr (one_div_ne_zero hne)

/-- The DDA run of `castRay` always runs to a final state: the fuel
computed from the initial side distances is sufficient. -/
theorem ddaRun_isSome (origin : Vector2) (angle maxDistance : ℝ) (levelMap : LevelMap) :
    ∃ s, ddaRun origin angle maxDistance levelMap = some s := by
  have hcs : ¬ (Real.cos angle = 0 ∧ Real.sin angle = 0) := by
    rintro ⟨h1, h2⟩
    have hsq := Real.sin_sq_add_cos_sq angle
    rw [h1, h2] at hsq
    norm_num at hsq
  have hne : ¬ ((ddaSetup origin (Real.cos angle) (Real.sin angle)).deltaDistX = none ∧
      (ddaSetup origin (Real.cos angle) (Real.sin angle)).deltaDistY = none) := by
    rintro ⟨h1, h2⟩
    rw [ddaSetup_deltaDistX] at h1
    rw [ddaSetup_deltaDistY] at h2
    apply hcs
    constructor
    · by_contra hc; rw [if_neg hc] at h1; cases h1
    · by_contra hc; rw [if_neg hc] at h2; cases h2
  have hsome := ddaLoop_isSome
    (ddaSetup origin (Real.cos angle) (Real.sin angle)).deltaDistX
    (ddaSetup origin (Real.cos angle) (Real.sin angle)).deltaDistY
    (ddaSetup origin (Real.cos angle) (Real.sin angle)).stepX
    (ddaSetup origin (Real.cos angle) (Real.sin angle)).stepY
    maxDistance levelMap
    (ddaSetup_delta_pos origin (Real.cos angle) (Real.sin angle)).1
    (ddaSetup_delta_pos origin (Real.cos angle) (Real.sin angle)).2
    hne
    (ddaFuel maxDistance (ddaSetup origin (Real.cos angle) (Real.sin angle)))
    (ddaSetup origin (Real.cos angle) (Real.sin angle)).state
    (ddaSetup_sideDistX_none_iff origin (Real.cos angle) (Real.sin angle))
    (ddaSetup_sideDistY_none_iff origin (Real.cos angle) (Real.sin angle))
    (by rw [ddaFuel]; omega)
  rw [Option.isSome_iff_exists] at hsome
  obtain ⟨s, hs⟩ := hsome
  exact ⟨s, by rw [ddaRun_eq]; exact hs⟩

/-! ## Claims about the raycasting renderer -/

/-- C9: the DDA loop inside `castRay` performs only finitely many
iterations — with the fuel `castRay` supplies it always reaches a final
state, so `castRay` is a total function producing a `Ray` for every
origin, angle, level, and maximum distance. -/
theorem C9_castRay_total (origin : Vector2) (angle maxDistance : ℝ)
    (levelMap : LevelMap) :
    ∃ s, ddaRun origin angle maxDistance levelMap = some s ∧
      castRay origin angle levelMap maxDistance = ddaFinish origin angle levelMap s := by
  obtain ⟨s, hs⟩ := ddaRun_isSome origin angle maxDistance levelMap
  refine ⟨s, hs, ?_⟩
  rw [castRay, hs]
  rfl

/-- The renderer's returned ray distance is clamped below by
`MIN_DISTANCE`, hence positive. -/
theorem castRay_distance_pos (origin : Vector2) (angle : ℝ) (levelMap : LevelMap)
    (maxDistance : ℝ) : 0 < (castRay origin angle levelMap maxDistance).distance := by
  have h : (0 : ℝ) < MIN_DISTANCE := by rw [MIN_DISTANCE]; norm_num
  exact lt_of_lt_of_le h (le_max_right _ _)

/-- C4 (amended): `castRay` is total — the DDA run always delivers a final
state and `castRay` packages it into a `Ray` (never a null result) — and
on a no-hit run the returned ray carries the sentinel `wallType = 0`
together with a distance of at least `maxDistance` (the loop's overshoot;
the source does not clamp it back down to exactly `maxDistance`). -/
theorem C4_castRay_no_hit_sentinel (origin : Vector2) (angle : ℝ)
    (levelMap : LevelMap) (maxDistance : ℝ) :
    ∃ s, ddaRun origin angle maxDistance levelMap = some s ∧
      castRay origin angle levelMap maxDistance = ddaFinish origin angle levelMap s ∧
      (s.hit = false →
        (castRay origin angle levelMap maxDistance).wallType = 0 ∧
        maxDistance ≤ (castRay origin angle levelMap maxDistance).distance) := by
  obtain ⟨s, hs⟩ := ddaRun_isSome origin angle maxDistance levelMap
  have hcast : castRay origin angle levelMap maxDistance =
      ddaFinish origin angle levelMap s := by
    rw [castRay, hs]
    rfl
  refine ⟨s, hs, hcast, fun hhit => ?_⟩
  have hexit := ddaLoop_exit (by rw [← ddaRun_eq]; exact hs)
  have hd : maxDistance ≤ s.distance := by
    by_contra hlt
    push_neg at hlt
    exact hexit ⟨hhit, hlt⟩
  constructor
  · rw [hcast]
    simp [ddaFinish, hhit]
  · rw [hcast]
    exact le_trans hd (le_max_left _ _)

/-- C3 (amended): `castAllRays` with `screenWidth = N` returns exactly `N`
rays, in column order, the ray for column `i` being cast at
`rotation + ((i/N) - 0.5) * fov`; every ray's distance is positive (at
least `MIN_DISTANCE`).  The upper bound `distance ≤ maxRenderDistance`
claimed by the spec does not hold — see the counterexample. -/
theorem C3_castAllRays_count (playerPosition : Vector2) (playerRotation : ℝ)
    (config : RaycastConfig) (levelMap : LevelMap) :
    (castAllRays playerPosition playerRotation config levelMap).length =
      config.screenWidth ∧
    (∀ i, i < config.screenWidth →
      (castAllRays playerPosition playerRotation config levelMap)[i]? =
        some (castRay playerPosition
          (playerRotation + (((i : ℝ) / (config.screenWidth : ℝ)) - 0.5) * config.fov)
          levelMap config.maxRenderDistance)) ∧
    (∀ ray ∈ castAllRays playerPosition playerRotation config levelMap,
      0 < ray.distance) := by
  refine ⟨by rw [castAllRays, List.length_map, List.length_range], ?_, ?_⟩
  · intro i hi
    rw [castAllRays, List.getElem?_map, List.getElem?_range hi, Option.map_some']
  · intro ray hray
    rw [castAllRays, List.mem_map] at hray
    obtain ⟨x, _, rfl⟩ := hray
    exact castRay_distance_pos _ _ _ _

/-! ## Claim C5: collision result shape -/

/-- A scan step either leaves the accumulator untouched or flags a
collision. -/
theorem wallScanStep_cases (position : Vector2) (radius : ℝ) (level : LevelMap)
    (s : ScanState) (c : ℤ × ℤ) :
    wallScanStep position radius level s c = s ∨
      (wallScanStep position radius level s c).collided = true := by
  simp only [wallScanStep, wallCellUpdate]
  split
  · split
    · right; rfl
    · left; rfl
  · left; rfl

/-- A scan that ends without a collision never touched the accumulator at
all: the result is the initial state. -/
theorem foldl_scan_of_not_collided {position : Vector2} {radius : ℝ} {level : LevelMap} :
    ∀ (l : List (ℤ × ℤ)) (s : ScanState),
      (l.foldl (wallScanStep position radius level) s).collided = false →
      l.foldl (wallScanStep position radius level) s = s := by
  intro l
  induction l with
  | nil => intro s _; rfl
  | cons c t ih =>
    intro s h
    rw [List.foldl_cons] at h ⊢
    rcases wallScanStep_cases position radius level s c with heq | hcol
    · rw [heq] at h ⊢
      exact ih s h
    · rw [foldl_scan_collided_mono t _ hcol] at h
      cases h

/-- A normalized nonzero vector has length one. -/
theorem length_normalize {v : Vector2} (h : length v ≠ 0) : length (normalize v) = 1 := by
  rw [normalize, if_neg h]
  have hl : 0 ≤ v.x * v.x + v.y * v.y := add_nonneg (mul_self_nonneg _) (mul_self_nonneg _)
  have hsq : length v * length v = v.x * v.x + v.y * v.y := Real.mul_self_sqrt hl
  have hne : v.x * v.x + v.y * v.y ≠ 0 := by
    rw [← hsq]
    exact mul_ne_zero h h
  rw [length]
  have hrw : v.x / length v * (v.x / length v) + v.y / length v * (v.y / length v)
      = (v.x * v.x + v.y * v.y) / (length v * length v) := by
    ring
  rw [hrw, hsq, div_self hne, Real.sqrt_one]

/-- C5 (amended): `checkWallCollision`'s normal is the zero vector when no
collision is reported, and in general is a unit vector or the zero vector
(zero also in the degenerate colliding case where opposing per-cell
normals cancel — so the spec's `unit whenever collided` is too strong);
`resolveWallCollision` returns exactly
`position + normal * (penetration + 0.001)` on a collision and the
position unchanged otherwise.  With a zero normal the resolved point is
the original position, which is *not* strictly outside the wall — see the
counterexample. -/
theorem C5_collision_result_shape (position : Vector2) (radius : ℝ) (level : LevelMap) :
    ((checkWallCollision position radius level).collided = false →
      (checkWallCollision position radius level).normal = ⟨0, 0⟩ ∧
      resolveWallCollision position (checkWallCollision position radius level) = position) ∧
    (length (checkWallCollision position radius level).normal = 1 ∨
      (checkWallCollision position radius level).normal = ⟨0, 0⟩) ∧
    ((checkWallCollision position radius level).collided = true →
      resolveWallCollision position (checkWallCollision position radius level) =
        add position (multiply (checkWallCollision position radius level).normal
          ((checkWallCollision position radius level).penetration + 0.001))) := by
  refine ⟨?_, ?_, ?_⟩
  · intro h
    have hzero : (wallScan position radius level).totalNormal = ⟨0, 0⟩ := by
      have hscan : wallScan position radius level = ⟨false, ⟨0, 0⟩, 0⟩ := by
        rw [wallScan]
        exact foldl_scan_of_not_collided _ _ (by
          simp only [checkWallCollision] at h
          rw [wallScan] at h
          exact h)
      rw [hscan]
    have hlen : length (wallScan position radius level).totalNormal = 0 := by
      rw [hzero, length]
      norm_num
    constructor
    · simp only [checkWallCollision, hlen]
      norm_num
    · rw [resolveWallCollision, if_neg]
      simp only [checkWallCollision]
      simp [h]
      simp only [checkWallCollision] at h
      simp [h]
  · by_cases hlen : length (wallScan position radius level).totalNormal > 0.0001
    · left
      simp only [checkWallCollision, if_pos hlen]
      exact length_normalize (by
        intro h0
        rw [h0] at hlen
        norm_num at hlen)
    · right
      simp only [checkWallCollision, if_neg hlen]
  · intro h
    rw [resolveWallCollision, if_pos]
    exact h

/-! ## Concrete evaluation helpers -/

theorem sqrt_eval {a b : ℝ} (hb : 0 ≤ b) (h : a = b * b) : Real.sqrt a = b := by
  rw [h, Real.sqrt_mul_self hb]

theorem length_vec_zero : length ⟨0, 0⟩ = 0 := by
  rw [length]
  norm_num

theorem wallScanStep_skip {position : Vector2} {radius : ℝ} {level : LevelMap}
    {s : ScanState} {cx cy : ℤ} (h : isWall cx cy level = false) :
    wallScanStep position radius level s (cx, cy) = s := by
  simp only [wallScanStep]
  rw [if_neg]
  simp [h]

/-- The corridor scan: the two opposing wall cells each contribute
penetration `0.1`, with push-out normals `(1,0)` and `(-1,0)` that cancel
to the zero vector. -/
theorem wallScan_corridor_eval : wallScan ⟨1.5, 1.5⟩ 0.6 demoCorridor = ⟨true, ⟨0, 0⟩, 0.1⟩ := by
  have hlen : length ⟨1 / 2, 0⟩ = 1 / 2 := by
    rw [length]; exact sqrt_eval (by norm_num) (by norm_num)
  have hlen' : length ⟨-(1 / 2), 0⟩ = 1 / 2 := by
    rw [length]; exact sqrt_eval (by norm_num) (by norm_num)
  have hnorm : normalize ⟨1 / 2, 0⟩ = ⟨1, 0⟩ := by
    rw [normalize, hlen]
    rw [if_neg (by norm_num)]
    refine Vector2.ext ?_ ?_ <;> norm_num
  have hnorm' : normalize ⟨-(1 / 2), 0⟩ = ⟨-1, 0⟩ := by
    rw [normalize, hlen']
    rw [if_neg (by norm_num)]
    refine Vector2.ext ?_ ?_ <;> norm_num
  have hstep1 : wallScanStep ⟨1.5, 1.5⟩ 0.6 demoCorridor ⟨false, ⟨0, 0⟩, 0⟩ ((0 : ℤ), (1 : ℤ))
      = ⟨true, ⟨0.1, 0⟩, 0.1⟩ := by
    simp only [wallScanStep]
    rw [if_pos (by decide : isWall 0 1 demoCorridor = true)]
    simp only [wallCellUpdate, closestPointOnCell, subtract]
    norm_num [min_def, max_def]
    rw [hlen, hnorm]
    norm_num [add, multiply]
  have hstep2 : wallScanStep ⟨1.5, 1.5⟩ 0.6 demoCorridor ⟨true, ⟨0.1, 0⟩, 0.1⟩ ((2 : ℤ), (1 : ℤ))
      = ⟨true, ⟨0, 0⟩, 0.1⟩ := by
    simp only [wallScanStep]
    rw [if_pos (by decide : isWall 2 1 demoCorridor = true)]
    simp only [wallCellUpdate, closestPointOnCell, subtract]
    norm_num [min_def, max_def]
    rw [hlen', hnorm']
    norm_num [add, multiply]
  have hfa : ⌊(1.5 : ℝ) - 0.6⌋ = (0 : ℤ) := by
    rw [show (1.5 : ℝ) - 0.6 = 0.9 by norm_num, Int.floor_eq_iff]
    norm_num
  have hfb : ⌊(1.5 : ℝ) + 0.6⌋ = (2 : ℤ) := by
    rw [show (1.5 : ℝ) + 0.6 = 2.1 by norm_num, Int.floor_eq_iff]
    norm_num
  have hcells : cellList 0 2 0 2 =
      [(0, 0), (1, 0), (2, 0), (0, 1), (1, 1), (2, 1), (0, 2), (1, 2), (2, 2)] := by decide
  rw [wallScan]
  simp only [hfa, hfb]
  rw [hcells]
  simp only [List.foldl_cons, List.foldl_nil]
  rw [wallScanStep_skip (by decide : isWall 0 0 demoCorridor = false)]
  rw [wallScanStep_skip (by decide : isWall 1 0 demoCorridor = false)]
  rw [wallScanStep_skip (by decide : isWall 2 0 demoCorridor = false)]
  rw [hstep1]
  rw [wallScanStep_skip (by decide : isWall 1 1 demoCorridor = false)]
  rw [hstep2]
  rw [wallScanStep_skip (by decide : isWall 0 2 demoCorridor = false)]
  rw [wallScanStep_skip (by decide : isWall 1 2 demoCorridor = false)]
  rw [wallScanStep_skip (by decide : isWall 2 2 demoCorridor = false)]

/-- The collision result at the corridor center: collided with zero
normal. -/
theorem checkWallCollision_corridor_eval :
    checkWallCollision ⟨1.5, 1.5⟩ 0.6 demoCorridor = ⟨true, ⟨0, 0⟩, 0.1⟩ := by
  simp only [checkWallCollision]
  rw [wallScan_corridor_eval]
  rw [show (⟨true, ⟨0, 0⟩, 0.1⟩ : ScanState).totalNormal = (⟨0, 0⟩ : Vector2) from rfl,
    length_vec_zero]
  norm_num

/-- C5 counterexample: between the two opposing walls of `demoCorridor`, a
radius `0.6` circle at the open center overlaps both walls; the per-cell
push-out normals cancel, so `checkWallCollision` reports `collided = true`
but `penetration = 0.1` with the **zero** normal (not a unit vector), and
`resolveWallCollision` returns the original, still-embedded position — not
a point strictly outside the wall surface. -/
theorem C5_counterexample_zero_normal :
    (checkWallCollision ⟨1.5, 1.5⟩ 0.6 demoCorridor).collided = true ∧
    (checkWallCollision ⟨1.5, 1.5⟩ 0.6 demoCorridor).normal = ⟨0, 0⟩ ∧
    (checkWallCollision ⟨1.5, 1.5⟩ 0.6 demoCorridor).penetration = 0.1 ∧
    resolveWallCollision ⟨1.5, 1.5⟩ (checkWallCollision ⟨1.5, 1.5⟩ 0.6 demoCorridor) =
      ⟨1.5, 1.5⟩ := by
  rw [checkWallCollision_corridor_eval]
  refine ⟨rfl, rfl, rfl, ?_⟩
  rw [resolveWallCollision, if_pos rfl]
  simp only [multiply, add]
  refine Vector2.ext ?_ ?_ <;> norm_num

/-! ## Concrete traces on the bordered level (claim C1's counterexample) -/

/-- The scan at the wall corner cell `(0,0)` of `demoBorder`: the center
of the corner cell collides with its own cell, the degenerate dominant-axis
branch pushing toward `(0,-1)`. -/
theorem wallScan_corner_eval : wallScan ⟨0.5, 0.5⟩ 0.3 demoBorder = ⟨true, ⟨0, -1⟩, 0.3⟩ := by
  have hfa : ⌊(0.5 : ℝ) - 0.3⌋ = (0 : ℤ) := by
    rw [show (0.5 : ℝ) - 0.3 = 0.2 by norm_num, Int.floor_eq_iff]
    norm_num
  have hfb : ⌊(0.5 : ℝ) + 0.3⌋ = (0 : ℤ) := by
    rw [show (0.5 : ℝ) + 0.3 = 0.8 by norm_num, Int.floor_eq_iff]
    norm_num
  have hcells : cellList 0 0 0 0 = [(0, 0)] := by decide
  have hstep : wallScanStep ⟨0.5, 0.5⟩ 0.3 demoBorder ⟨false, ⟨0, 0⟩, 0⟩ ((0 : ℤ), (0 : ℤ))
      = ⟨true, ⟨0, -1⟩, 0.3⟩ := by
    simp only [wallScanStep]
    rw [if_pos (by decide : isWall 0 0 demoBorder = true)]
    simp only [wallCellUpdate, closestPointOnCell, subtract]
    norm_num [min_def, max_def]
    rw [length_vec_zero]
    norm_num [add]
  rw [wallScan]
  simp only [hfa, hfb]
  rw [hcells]
  simp only [List.foldl_cons, List.foldl_nil]
  rw [hstep]

theorem checkWallCollision_corner_eval : checkWallCollision ⟨0.5, 0.5⟩ 0.3 demoBorder = ⟨true, ⟨0, -1⟩, 0.3⟩ := by
  have hlen : length ⟨0, -1⟩ = 1 := by
    rw [length]; exact sqrt_eval (by norm_num) (by norm_num)
  have hnorm : normalize ⟨0, -1⟩ = ⟨0, -1⟩ := by
    rw [normalize, hlen]
    rw [if_neg (by norm_num)]
    refine Vector2.ext ?_ ?_ <;> norm_num
  simp only [checkWallCollision]
  rw [wallScan_corner_eval]
  rw [show (⟨true, ⟨0, -1⟩, 0.3⟩ : ScanState).totalNormal = (⟨0, -1⟩ : Vector2) from rfl,
    hlen]
  rw [if_pos (by norm_num : (1 : ℝ) > 0.0001), hnorm]

theorem wallScan_resolved_eval : wallScan ⟨0.5, 0.199⟩ 0.3 demoBorder = ⟨true, ⟨0, -0.899⟩, 0.3⟩ := by
  have hlenA : length ⟨0, 199 / 1000⟩ = 199 / 1000 := by
    rw [length]; exact sqrt_eval (by norm_num) (by norm_num)
  have hnormA : normalize ⟨0, 199 / 1000⟩ = ⟨0, 1⟩ := by
    rw [normalize, hlenA]
    rw [if_neg (by norm_num)]
    refine Vector2.ext ?_ ?_ <;> norm_num
  have hfa : ⌊(0.5 : ℝ) - 0.3⌋ = (0 : ℤ) := by
    rw [show (0.5 : ℝ) - 0.3 = 0.2 by norm_num, Int.floor_eq_iff]
    norm_num
  have hfb : ⌊(0.5 : ℝ) + 0.3⌋ = (0 : ℤ) := by
    rw [show (0.5 : ℝ) + 0.3 = 0.8 by norm_num, Int.floor_eq_iff]
    norm_num
  have hfc : ⌊(0.199 : ℝ) - 0.3⌋ = (-1 : ℤ) := by
    rw [show (0.199 : ℝ) - 0.3 = -0.101 by norm_num, Int.floor_eq_iff]
    norm_num
  have hfd : ⌊(0.199 : ℝ) + 0.3⌋ = (0 : ℤ) := by
    rw [show (0.199 : ℝ) + 0.3 = 0.499 by norm_num, Int.floor_eq_iff]
    norm_num
  have hcells : cellList 0 0 (-1) 0 = [(0, -1), (0, 0)] := by decide
  have hstepA : wallScanStep ⟨0.5, 0.199⟩ 0.3 demoBorder ⟨false, ⟨0, 0⟩, 0⟩ ((0 : ℤ), (-1 : ℤ))
      = ⟨true, ⟨0, 0.101⟩, 0.101⟩ := by
    simp only [wallScanStep]
    rw [if_pos (by decide : isWall 0 (-1) demoBorder = true)]
    simp only [wallCellUpdate, closestPointOnCell, subtract]
    norm_num [min_def, max_def]
    rw [hlenA, hnormA]
    norm_num [add, multiply]
  have hstepB : wallScanStep ⟨0.5, 0.199⟩ 0.3 demoBorder ⟨true, ⟨0, 0.101⟩, 0.101⟩
      ((0 : ℤ), (0 : ℤ)) = ⟨true, ⟨0, -0.899⟩, 0.3⟩ := by
    simp only [wallScanStep]
    rw [if_pos (by decide : isWall 0 0 demoBorder = true)]
    simp only [wallCellUpdate, closestPointOnCell, subtract]
    norm_num [min_def, max_def]
    rw [length_vec_zero]
    norm_num [add]
  rw [wallScan]
  simp only [hfa, hfb, hfc, hfd]
  rw [hcells]
  simp only [List.foldl_cons, List.foldl_nil]
  rw [hstepA, hstepB]

theorem checkWallCollision_resolved_collided : (checkWallCollision ⟨0.5, 0.199⟩ 0.3 demoBorder).collided = true := by
  simp only [checkWallCollision]
  rw [wallScan_resolved_eval]

theorem resolveWallCollision_corner_eval : resolveWallCollision ⟨0.5, 0.5⟩ ⟨true, ⟨0, -1⟩, 0.3⟩ = ⟨0.5, 0.199⟩ := by
  rw [resolveWallCollision, if_pos rfl]
  simp only [multiply, add]
  refine Vector2.ext ?_ ?_ <;> norm_num

theorem moveWithCollision_corner_eval : moveWithCollision ⟨0.5, 0.5⟩ ⟨0.5, 0.5⟩ 0.3 demoBorder = ⟨0.5, 0.5⟩ := by
  simp only [moveWithCollision]
  rw [checkWallCollision_corner_eval, resolveWallCollision_corner_eval, checkWallCollision_resolved_collided]
  simp

/-- C1 counterexample: with `current = desired = (0.5, 0.5)` inside the
border wall of `demoBorder` and radius `0.3 ∈ (0, 0.5)`, every candidate
of `moveWithCollision` (direct resolve, X-only slide, Y-only slide) still
collides, so the full-stop fallback returns the current position — whose
containing cell **is** a wall.  The claim as stated (for every
current/desired pair) is therefore false. -/
theorem C1_counterexample_corner_stuck :
    0 < (0.3 : ℝ) ∧ (0.3 : ℝ) < 0.5 ∧
    isWall ⌊(moveWithCollision ⟨0.5, 0.5⟩ ⟨0.5, 0.5⟩ 0.3 demoBorder).x⌋
      ⌊(moveWithCollision ⟨0.5, 0.5⟩ ⟨0.5, 0.5⟩ 0.3 demoBorder).y⌋ demoBorder = true := by
  refine ⟨by norm_num, by norm_num, ?_⟩
  rw [moveWithCollision_corner_eval]
  show isWall ⌊(0.5 : ℝ)⌋ ⌊(0.5 : ℝ)⌋ demoBorder = true
  rw [show ⌊(0.5 : ℝ)⌋ = 0 by rw [Int.floor_eq_iff]; norm_num]
  decide

/-- The scan at the open center of `demoBorder` with the default entity
radius: the bounding box covers only the open cell, so nothing collides. -/
theorem wallScan_center_eval : wallScan ⟨1.5, 1.5⟩ 0.3 demoBorder = ⟨false, ⟨0, 0⟩, 0⟩ := by
  have hfa : ⌊(1.5 : ℝ) - 0.3⌋ = (1 : ℤ) := by
    rw [show (1.5 : ℝ) - 0.3 = 1.2 by norm_num, Int.floor_eq_iff]
    norm_num
  have hfb : ⌊(1.5 : ℝ) + 0.3⌋ = (1 : ℤ) := by
    rw [show (1.5 : ℝ) + 0.3 = 1.8 by norm_num, Int.floor_eq_iff]
    norm_num
  have hcells : cellList 1 1 1 1 = [(1, 1)] := by decide
  rw [wallScan]
  simp only [hfa, hfb]
  rw [hcells]
  simp only [List.foldl_cons, List.foldl_nil]
  rw [wallScanStep_skip (by decide : isWall 1 1 demoBorder = false)]

/-- C5 witness: at the wall-free center of the bordered level the check
reports no collision, a zero normal, and an unchanged resolved position;
at the corridor center it reports a collision and the resolved position is
exactly `position + normal * (penetration + 0.001)`. -/
theorem C5_collision_result_shape_witness :
    (checkWallCollision ⟨1.5, 1.5⟩ 0.3 demoBorder).collided = false ∧
    (checkWallCollision ⟨1.5, 1.5⟩ 0.3 demoBorder).normal = ⟨0, 0⟩ ∧
    resolveWallCollision ⟨1.5, 1.5⟩ (checkWallCollision ⟨1.5, 1.5⟩ 0.3 demoBorder) =
      ⟨1.5, 1.5⟩ ∧
    (checkWallCollision ⟨1.5, 1.5⟩ 0.6 demoCorridor).collided = true ∧
    resolveWallCollision ⟨1.5, 1.5⟩ (checkWallCollision ⟨1.5, 1.5⟩ 0.6 demoCorridor) =
      add ⟨1.5, 1.5⟩ (multiply (checkWallCollision ⟨1.5, 1.5⟩ 0.6 demoCorridor).normal
        ((checkWallCollision ⟨1.5, 1.5⟩ 0.6 demoCorridor).penetration + 0.001)) := by
  have hfree : (checkWallCollision ⟨1.5, 1.5⟩ 0.3 demoBorder).collided = false := by
    simp only [checkWallCollision]
    rw [wallScan_center_eval]
  have hcol : (checkWallCollision ⟨1.5, 1.5⟩ 0.6 demoCorridor).collided = true := by
    rw [checkWallCollision_corridor_eval]
  obtain ⟨hA, _, _⟩ := C5_collision_result_shape ⟨1.5, 1.5⟩ 0.3 demoBorder
  obtain ⟨_, _, hC⟩ := C5_collision_result_shape ⟨1.5, 1.5⟩ 0.6 demoCorridor
  exact ⟨hfree, (hA hfree).1, (hA hfree).2, hcol, hC hcol⟩

/-! ## Demo trace for the renderer DDA (claims C3 and C4) -/

/-- One unfolding of the DDA loop at positive fuel. -/
theorem ddaLoop_succ_eq (dx dy : Option ℝ) (sx sy : ℤ) (maxD : ℝ) (lvl : LevelMap)
    (fuel : ℕ) (s : DdaState) :
    ddaLoop dx dy sx sy maxD lvl (fuel + 1) s =
      if s.hit = false ∧ s.distance < maxD then
        ddaLoop dx dy sx sy maxD lvl fuel (ddaStep dx dy sx sy lvl s) else some s := rfl

/-- Demo trace (origin `(0.5, 0.5)`, angle `0`, open level, max distance
`1`): the DDA setup. -/
theorem ddaSetup_demo_eval : ddaSetup ⟨0.5, 0.5⟩ (Real.cos 0) (Real.sin 0) =
    ⟨some 1, none, 1, 1, ⟨0, 0, some 0.5, none, Side.vertical, 0, false⟩⟩ := by
  have hf : ⌊(0.5 : ℝ)⌋ = (0 : ℤ) := by rw [Int.floor_eq_iff]; norm_num
  have hf' : ⌊(1 / 2 : ℝ)⌋ = (0 : ℤ) := by rw [Int.floor_eq_iff]; norm_num
  rw [Real.cos_zero, Real.sin_zero]
  simp only [ddaSetup]
  norm_num [hf, hf']

/-- Demo trace: the computed fuel is 3. -/
theorem ddaFuel_demo_eval : ddaFuel 1 ⟨some 1, none, 1, 1, ⟨0, 0, some 0.5, none, Side.vertical, 0, false⟩⟩ = 3 := by
  simp only [ddaFuel, axisFuel]
  rw [show ⌈((1 : ℝ) - 0.5) / 1⌉ = 1 by rw [Int.ceil_eq_iff]; norm_num]
  rfl

/-- Demo trace: first DDA advance, into open cell `(1,0)`. -/
theorem ddaStep_demo_one : ddaStep (some 1) none 1 1 demoOpen3 ⟨0, 0, some 0.5, none, Side.vertical, 0, false⟩
    = ⟨1, 0, some 1.5, none, Side.vertical, 0.5, false⟩ := by
  rw [ddaStep_pick_x (by trivial)]
  simp only [oAdd, Option.getD_some]
  norm_num [isWallTile, demoOpen3]

/-- Demo trace: second DDA advance, into open cell `(2,0)`, distance
`1.5` past the max distance `1`. -/
theorem ddaStep_demo_two : ddaStep (some 1) none 1 1 demoOpen3 ⟨1, 0, some 1.5, none, Side.vertical, 0.5, false⟩
    = ⟨2, 0, some 2.5, none, Side.vertical, 1.5, false⟩ := by
  rw [ddaStep_pick_x (by trivial)]
  simp only [oAdd, Option.getD_some]
  norm_num [isWallTile, demoOpen3]
  decide

/-- Demo trace: the full loop run — two advances, then exit with no hit
at distance `1.5`. -/
theorem ddaLoop_demo_eval : ddaLoop (some 1) none 1 1 1 demoOpen3 3
    ⟨0, 0, some 0.5, none, Side.vertical, 0, false⟩ =
    some ⟨2, 0, some 2.5, none, Side.vertical, 1.5, false⟩ := by
  rw [show (3 : ℕ) = 2 + 1 from rfl, ddaLoop_succ_eq]
  rw [if_pos (by refine ⟨rfl, ?_⟩; show (0 : ℝ) < 1; norm_num)]
  rw [ddaStep_demo_one]
  rw [show (2 : ℕ) = 1 + 1 from rfl, ddaLoop_succ_eq]
  rw [if_pos (by refine ⟨rfl, ?_⟩; show (0.5 : ℝ) < 1; norm_num)]
  rw [ddaStep_demo_two]
  rw [show (1 : ℕ) = 0 + 1 from rfl, ddaLoop_succ_eq]
  rw [if_neg (by rintro ⟨-, hlt⟩; rw [show (⟨2, 0, some 2.5, none, Side.vertical, 1.5, false⟩ : DdaState).distance = 1.5 from rfl] at hlt; norm_num at hlt)]

/-- Demo trace: the assembled `ddaRun`. -/
theorem ddaRun_demo_eval : ddaRun ⟨0.5, 0.5⟩ 0 1 demoOpen3 =
    some ⟨2, 0, some 2.5, none, Side.vertical, 1.5, false⟩ := by
  rw [ddaRun_eq, ddaSetup_demo_eval, ddaFuel_demo_eval]
  exact ddaLoop_demo_eval

/-- Demo trace: `castRay` packages the final loop state. -/
theorem castRay_demo_eq : castRay ⟨0.5, 0.5⟩ 0 demoOpen3 1 =
    ddaFinish ⟨0.5, 0.5⟩ 0 demoOpen3 ⟨2, 0, some 2.5, none, Side.vertical, 1.5, false⟩ := by
  rw [castRay, ddaRun_demo_eval]
  rfl

/-- Demo trace: the returned distance is `1.5`, strictly above the max
distance `1` that was passed in. -/
theorem castRay_demo_distance : (castRay ⟨0.5, 0.5⟩ 0 demoOpen3 1).distance = 3 / 2 := by
  rw [castRay_demo_eq]
  show max (1.5 : ℝ) MIN_DISTANCE = 3 / 2
  rw [MIN_DISTANCE, max_eq_left (by norm_num)]
  norm_num

/-- Demo trace: no hit, so the sentinel wall type `0`. -/
theorem castRay_demo_wallType : (castRay ⟨0.5, 0.5⟩ 0 demoOpen3 1).wallType = 0 := by
  rw [castRay_demo_eq]
  rfl

/-- Demo trace: with `screenWidth = 1`, `fov = 0`, `rotation = 0`, the
single ray of the fan is exactly the demo ray. -/
theorem castRay_demo_mem : castRay ⟨0.5, 0.5⟩ 0 demoOpen3 1 ∈
    castAllRays ⟨0.5, 0.5⟩ 0 ⟨1, 480, 0, 1⟩ demoOpen3 := by
  have hangle : (0 : ℝ) + ((((0 : ℕ) : ℝ) / (((1 : ℕ) : ℝ))) - 0.5) * (0 : ℝ) = 0 := by
    norm_num
  rw [castAllRays]
  rw [show List.range 1 = [0] from rfl]
  simp only [List.map_cons, List.map_nil]
  rw [hangle]
  exact List.mem_singleton.mpr rfl

/-- C4 witness: the demo no-hit ray carries wall type `0` and distance at
least the max distance, by the amended theorem. -/
theorem C4_castRay_no_hit_sentinel_witness :
    (castRay ⟨0.5, 0.5⟩ 0 demoOpen3 1).wallType = 0 ∧
    (1 : ℝ) ≤ (castRay ⟨0.5, 0.5⟩ 0 demoOpen3 1).distance := by
  obtain ⟨s, hs, _, himp⟩ := C4_castRay_no_hit_sentinel ⟨0.5, 0.5⟩ 0 demoOpen3 1
  have hsS : s = ⟨2, 0, some 2.5, none, Side.vertical, 1.5, false⟩ := by
    rw [ddaRun_demo_eval] at hs
    exact (Option.some.inj hs).symm
  exact himp (by rw [hsS])

/-- C4 counterexample: the demo no-hit ray's distance is **not** equal to
`maxDistance` — the source never clamps the overshoot back down, so the
claimed `distance == maxDistance` sentinel is false. -/
theorem C4_counterexample_distance_not_clamped :
    (castRay ⟨0.5, 0.5⟩ 0 demoOpen3 1).wallType = 0 ∧
    ¬ (castRay ⟨0.5, 0.5⟩ 0 demoOpen3 1).distance = 1 := by
  refine ⟨castRay_demo_wallType, ?_⟩
  rw [castRay_demo_distance]
  norm_num

/-- C3 counterexample: a ray of a fan (config `screenWidth = 1`,
`fov = 0`, `maxRenderDistance = 1`) has distance `1.5` strictly above
`maxRenderDistance`, refuting the claimed upper bound. -/
theorem C3_counterexample_distance_exceeds_max :
    ∃ ray ∈ castAllRays ⟨0.5, 0.5⟩ 0 ⟨1, 480, 0, 1⟩ demoOpen3,
      (⟨1, 480, 0, 1⟩ : RaycastConfig).maxRenderDistance < ray.distance := by
  refine ⟨castRay ⟨0.5, 0.5⟩ 0 demoOpen3 1, castRay_demo_mem, ?_⟩
  rw [castRay_demo_distance]
  show (1 : ℝ) < 3 / 2
  norm_num

/-- C3 witness: the demo fan has exactly `screenWidth = 1` ray and the
demo ray, a member of the fan, has positive distance. -/
theorem C3_castAllRays_count_witness :
    (castAllRays ⟨0.5, 0.5⟩ 0 ⟨1, 480, 0, 1⟩ demoOpen3).length = 1 ∧
    0 < (castRay ⟨0.5, 0.5⟩ 0 demoOpen3 1).distance := by
  obtain ⟨hlen, _, hpos⟩ := C3_castAllRays_count ⟨0.5, 0.5⟩ 0 ⟨1, 480, 0, 1⟩ demoOpen3
  exact ⟨hlen, hpos _ castRay_demo_mem⟩

end FrankenKiro
